import Mathlib

set_option linter.unusedVariables false

/-!
Verification of the lms-api payment reconciliation subsystem.

The definitions below are a shallow embedding of the TypeScript source:
`payos.controller.ts` (PayOS intent creation, webhook signature verification,
webhook handling), the Stripe order controller (`createOrder`, `newPayment`),
and the Stripe checkout controller (`createCheckoutSession`, `stripeWebhook`).
JavaScript objects appearing in webhook payloads are modelled as association
lists of `JsVal`; Mongoose collections are modelled as Lean lists; each HTTP
handler becomes a pure function from a database state and request data to a
result carrying the new database state, the HTTP response, and the list of
externally visible side effects in the order the code performs them.
-/

/-- A JavaScript value as it can appear in a webhook payload field. -/
inductive JsVal where
  | jnull
  | jsUndefined
  | str (s : String)
  | num (n : Int)
  | jbool (b : Bool)
  deriving DecidableEq

/-- JS `String(v)` for the values we model. -/
def JsVal.toStr : JsVal → String
  | .jnull => "null"
  | .jsUndefined => "undefined"
  | .str s => s
  | .num n => toString n
  | .jbool b => if b then "true" else "false"

/-- Value normalization inside `verifyWebhookSignature`: `null`/`undefined`
become the empty string, the literal strings `"null"`/`"undefined"` become
the empty string, anything else goes through `String(value)`. -/
def normalizeValue : JsVal → String
  | .jnull => ""
  | .jsUndefined => ""
  | .str s => if s = "null" then "" else if s = "undefined" then "" else s
  | v => v.toStr

/-- A webhook payload object: field names with their values. -/
abbrev Payload := List (String × JsVal)

/-- JS `data[key]`: the value of the first entry with that field name,
`undefined` when the field is absent. -/
def getField (d : Payload) (k : String) : JsVal :=
  match d.find? (fun p => p.fst = k) with
  | some p => p.snd
  | none => .jsUndefined

/-- JS default string comparison (by code unit), used by `Array.prototype.sort`. -/
def charsLt : List Char → List Char → Bool
  | _, [] => false
  | [], _ :: _ => true
  | a :: as, b :: bs =>
    if a.toNat < b.toNat then true
    else if b.toNat < a.toNat then false
    else charsLt as bs

/-- JS `a < b` on strings. -/
def strLt (a b : String) : Bool := charsLt a.data b.data

/-- Insertion step of the sort that models `Object.keys(data).sort()`. -/
def insertKey (k : String) : List String → List String
  | [] => [k]
  | x :: xs => if strLt k x then k :: x :: xs else x :: insertKey k xs

/-- `Object.keys(data).sort()`: lexicographic insertion sort of field names. -/
def sortKeys : List String → List String
  | [] => []
  | k :: ks => insertKey k (sortKeys ks)

/-- The message string `verifyWebhookSignature` feeds into the HMAC:
sorted keys, each rendered as `key=value` with normalized values,
joined with ampersands. -/
def canonicalString (d : Payload) : String :=
  String.intercalate "&"
    ((sortKeys (d.map Prod.fst)).map (fun k => k ++ "=" ++ normalizeValue (getField d k)))

/-- JS `String.prototype.toLowerCase` on a character, for the ASCII range
(HMAC hex digests and the signatures compared against them are ASCII). -/
def lowerChar (ch : Char) : Char :=
  if 65 ≤ ch.toNat ∧ ch.toNat ≤ 90 then Char.ofNat (ch.toNat + 32) else ch

/-- JS `String.prototype.toLowerCase` for the ASCII range. -/
def toLowerAscii (s : String) : String := ⟨s.data.map lowerChar⟩

/-- `verifyWebhookSignature(data, signature)` from `payos.controller.ts`.
`hmac key msg` stands for Node's `crypto.createHmac("sha256", key).update(msg).digest("hex")`;
`checksumKey` is `PAYOS_CHECKSUM_KEY`; `devSkip` is the development switch
`NODE_ENV === "development" && SKIP_PAYOS_SIGNATURE_VERIFY === "true"`;
`data = none` models a falsy `data` argument. -/
def verifyWebhookSignature (hmac : String → String → String) (checksumKey : Option String)
    (devSkip : Bool) (data : Option Payload) (signature : String) : Bool :=
  match checksumKey, data with
  | none, _ => false
  | some _, none => false
  | some key, some d =>
    if devSkip then true
    else toLowerAscii (hmac key (canonicalString d)) == toLowerAscii signature

/-- Insertion step of a sort of whole payload entries by field name; used by
the spec-side description of the canonical string. -/
def insertPair (p : String × JsVal) : Payload → Payload
  | [] => [p]
  | q :: qs => if strLt p.fst q.fst then p :: q :: qs else q :: insertPair p qs

/-- Sort of whole payload entries by field name. -/
def sortPairs : Payload → Payload
  | [] => []
  | p :: ps => insertPair p (sortPairs ps)

/-- Modelled from the spec (section 4.1): the string to be hashed is obtained
by sorting the payload's fields lexicographically by name and joining
`key=value` pairs (values normalized) with ampersands. -/
def specCanonicalString (d : Payload) : String :=
  String.intercalate "&" ((sortPairs d).map (fun p => p.fst ++ "=" ++ normalizeValue p.snd))

theorem map_fst_insertPair (p : String × JsVal) (l : Payload) :
    (insertPair p l).map Prod.fst = insertKey p.fst (l.map Prod.fst) := by
  induction l with
  | nil => rfl
  | cons q qs ih =>
      by_cases h : strLt p.fst q.fst = true
      · simp [insertPair, insertKey, h]
      · simp [insertPair, insertKey, h, ih]

theorem map_fst_sortPairs (d : Payload) :
    (sortPairs d).map Prod.fst = sortKeys (d.map Prod.fst) := by
  induction d with
  | nil => rfl
  | cons p ps ih => simp [sortPairs, sortKeys, map_fst_insertPair, ih]

theorem insertPair_perm (p : String × JsVal) (l : Payload) :
    (insertPair p l).Perm (p :: l) := by
  induction l with
  | nil => simp [insertPair]
  | cons q qs ih =>
      by_cases h : strLt p.fst q.fst = true
      · simp [insertPair, h]
      · simp only [insertPair, h, if_neg, ite_false]
        exact ((ih.cons q).trans (List.Perm.swap p q qs))

theorem sortPairs_perm (d : Payload) : (sortPairs d).Perm d := by
  induction d with
  | nil => simp [sortPairs]
  | cons p ps ih => exact (insertPair_perm p (sortPairs ps)).trans (ih.cons p)

theorem getField_eq_of_mem_nodup (d : Payload) (p : String × JsVal)
    (hnd : (d.map Prod.fst).Nodup) (hp : p ∈ d) : getField d p.fst = p.snd := by
  induction d with
  | nil => cases hp
  | cons q qs ih =>
      simp only [List.map_cons, List.nodup_cons] at hnd
      rcases List.mem_cons.mp hp with h | h
      · subst h
        simp [getField]
      · have hne : q.fst ≠ p.fst := by
          intro he
          exact hnd.1 (he ▸ List.mem_map_of_mem Prod.fst h)
        have : getField qs p.fst = p.snd := ih hnd.2 h
        simpa [getField, List.find?, hne] using this

theorem canonicalString_eq_spec (d : Payload) (hnd : (d.map Prod.fst).Nodup) :
    canonicalString d = specCanonicalString d := by
  unfold canonicalString specCanonicalString
  rw [← map_fst_sortPairs, List.map_map]
  refine congrArg _ (List.map_congr_left ?_)
  intro p hp
  have hpd : p ∈ d := (sortPairs_perm d).mem_iff.mp hp
  simp [Function.comp, getField_eq_of_mem_nodup d p hnd hpd]

/-- `Order.payment_info` as stored by this subsystem: the PayOS variant carries
`orderCode`, the Stripe variant carries `id` (here `payId`); `status`, `amount`
and `currency` are common. Inert display fields of the PayOS variant (qrCode,
checkoutUrl, expiredAt, bin, accountNumber, accountName) carry no logic and are
not modelled. -/
structure PaymentInfo where
  orderCode : Option JsVal
  payId : Option String
  status : Option String
  amount : Option Int
  currency : Option String
  deriving DecidableEq

/-- An Order document. `payment` is `none` when the order was created with a
falsy `payment_info` (possible on the synchronous path). `userId` is `none`
when the creating request had no resolvable user. -/
structure Order where
  courseId : Nat
  userId : Option Nat
  payment : Option PaymentInfo
  deriving DecidableEq

/-- A Course document; `purchased` is `none` when the field is unset. -/
structure Course where
  id : Nat
  name : String
  price : Int
  purchased : Option Nat
  deriving DecidableEq

/-- A User document; `courses` is the owned-course id list. -/
structure User where
  id : Nat
  email : String
  courses : List Nat
  deriving DecidableEq

/-- A Notification document. -/
structure Notification where
  userId : Option Nat
  title : String
  message : String
  deriving DecidableEq

/-- The database state touched by the payment subsystem. -/
structure DB where
  orders : List Order
  users : List User
  courses : List Course
  notifications : List Notification
  deriving DecidableEq

/-- An HTTP outcome: a direct `res.status(c).json(...)` or an error forwarded
through `next(new ErrorHandler(msg, c))`. Response payloads are identified by
a short label. -/
inductive Resp where
  | json (status : Nat) (label : String)
  | nextErr (status : Nat) (label : String)
  deriving DecidableEq

/-- HTTP status of a response. -/
def Resp.statusCode : Resp → Nat
  | .json c _ => c
  | .nextErr c _ => c

/-- Externally visible side effects, in the order the handler performs them. -/
inductive Ev where
  | evSaveOrder
  | evCreateOrder
  | evSaveUser
  | evSendMail
  | evSendMailFail
  | evCreateNotification
  | evSaveCourse
  | evSocket
  | evProviderCall
  deriving DecidableEq

/-- Outcome of one handler invocation. -/
structure HandlerResult where
  db : DB
  resp : Resp
  events : List Ev
  deriving DecidableEq

/-- Does this `payment_info` match a PayOS `orderCode` lookup value?
`OrderModel.findOne({"payment_info.orderCode": oc})`: a document without the
field does not match a present value. -/
def paymentHasCode (p : Option PaymentInfo) (oc : JsVal) : Bool :=
  match p with
  | some pi => pi.orderCode = some oc
  | none => false

/-- Does this `payment_info` match a Stripe `payment_info.id` lookup value? -/
def paymentHasPayId (p : Option PaymentInfo) (i : String) : Bool :=
  match p with
  | some pi => pi.payId = some i
  | none => false

/-- `OrderModel.findOne({"payment_info.orderCode": oc})`. -/
def findOrderByCode (orders : List Order) (oc : JsVal) : Option Order :=
  orders.find? (fun o => paymentHasCode o.payment oc)

/-- `OrderModel.findOne({"payment_info.id": i})`. -/
def findOrderByPayId (orders : List Order) (i : String) : Option Order :=
  orders.find? (fun o => paymentHasPayId o.payment i)

/-- `CourseModel.findById`. -/
def findCourseById (courses : List Course) (cid : Nat) : Option Course :=
  courses.find? (fun c => c.id = cid)

/-- `userModel.findById`. -/
def findUserById (users : List User) (uid : Nat) : Option User :=
  users.find? (fun u => u.id = uid)

/-- Persisting a mutated user document (`user.save()`): replace by id. -/
def saveUserById (users : List User) (u : User) : List User :=
  users.map (fun x => if x.id = u.id then u else x)

/-- Persisting a mutated course document (`course.save()`): replace by id. -/
def saveCourseById (courses : List Course) (c : Course) : List Course :=
  courses.map (fun x => if x.id = c.id then c else x)

/-- `existingOrder.payment_info = {...existingOrder.payment_info, status: "PAID"}`:
a spread of a missing `payment_info` yields an object holding only `status`. -/
def markPaid : Option PaymentInfo → Option PaymentInfo
  | some p => some { p with status := some "PAID" }
  | none => some ⟨none, none, some "PAID", none, none⟩

/-- The order document after its in-place mutation to `PAID`. -/
def orderMarkPaid (o : Order) : Order :=
  { o with payment := markPaid o.payment }

/-- In-place mutation of the order found by `findOrderByCode` followed by
`save()`: the first matching document is replaced by its `PAID` version. -/
def setOrderPaid : List Order → JsVal → List Order
  | [], _ => []
  | o :: os, oc =>
    if paymentHasCode o.payment oc then orderMarkPaid o :: os
    else o :: setOrderPaid os oc

/-- `existingOrder.payment_info && existingOrder.payment_info.status === "PAID"`. -/
def paymentIsPaid (p : Option PaymentInfo) : Bool :=
  match p with
  | some pi => pi.status = some "PAID"
  | none => false

/-- `isPaymentSuccess` from the PayOS webhook: `code === "00" || desc === "success"
|| status === "PAID"` on the payload fields. -/
def isPaymentSuccess (d : Payload) : Bool :=
  decide (getField d "code" = JsVal.str "00")
  || decide (getField d "desc" = JsVal.str "success")
  || decide (getField d "status" = JsVal.str "PAID")

/-- `payOSWebhook` from `payos.controller.ts`. `hmac`, `checksumKey`, `devSkip`
are the signature-verifier parameters; `emailOk` tells whether the confirmation
email send would succeed; `data`/`signature` are the request payload and the
signature from header or body (`none` models a falsy value). -/
def payOSWebhook (hmac : String → String → String) (checksumKey : Option String)
    (devSkip : Bool) (emailOk : Bool) (db : DB)
    (data : Option Payload) (signature : Option String) : HandlerResult :=
  match data, signature with
  | none, _ => ⟨db, .json 400 "Missing data or signature", []⟩
  | some _, none => ⟨db, .json 400 "Missing data or signature", []⟩
  | some d, some sig =>
    if verifyWebhookSignature hmac checksumKey devSkip (some d) sig then
      match findOrderByCode db.orders (getField d "orderCode") with
      | none =>
        if isPaymentSuccess d then
          ⟨db, .json 200 "Order not found but acknowledged", []⟩
        else
          ⟨db, .json 200 "Webhook received (test or unknown order)", []⟩
      | some o =>
        if paymentIsPaid o.payment then
          ⟨db, .json 200 "Order already processed", []⟩
        else if isPaymentSuccess d then
          match findCourseById db.courses o.courseId,
                o.userId.bind (findUserById db.users) with
          | some c, some u =>
            if o.courseId ∈ u.courses then
              ⟨{ db with orders := setOrderPaid db.orders (getField d "orderCode") },
                .json 200 "Course already added", [.evSaveOrder]⟩
            else
              let orders1 := setOrderPaid db.orders (getField d "orderCode")
              let pushEvs : List Ev := if c.id ∈ u.courses then [] else [.evSaveUser]
              let users1 :=
                if c.id ∈ u.courses then db.users
                else saveUserById db.users { u with courses := u.courses ++ [c.id] }
              let mailEv : Ev := if emailOk then .evSendMail else .evSendMailFail
              let notif : Notification :=
                ⟨some u.id, "New Order", "You have a new order for " ++ c.name⟩
              let c1 := { c with purchased := some (c.purchased.getD 0 + 1) }
              ⟨⟨orders1, users1, saveCourseById db.courses c1, db.notifications ++ [notif]⟩,
                .json 200 "",
                .evSaveOrder :: pushEvs ++ [mailEv, .evCreateNotification, .evSaveCourse, .evSocket]⟩
          | _, _ => ⟨db, .json 404 "Course or user not found", []⟩
        else
          ⟨db, .json 200 "", []⟩
    else
      ⟨db, .json 401 "Invalid signature", []⟩

/-- Modelled from the spec (sections 4.3 and 4.5): the order-creation service
`newOrder` of `order.service.ts` (not under src/) records the Order and responds
success. -/
def newOrder (db : DB) (o : Order) (events : List Ev) : HandlerResult :=
  ⟨{ db with orders := db.orders ++ [o] }, .json 201 "order created", events ++ [.evCreateOrder]⟩

/-- Tail of `createOrder` after the PaymentIntent check (user lookup onwards).
`emailOk` tells whether `sendMail` would succeed; an email failure here is
caught and forwarded as a 500 error before any state change. -/
def createOrderAfterPayment (emailOk : Bool) (db : DB) (reqUserId courseId : Nat)
    (payment : Option PaymentInfo) (pid : Option String) : HandlerResult :=
  let user? := findUserById db.users reqUserId
  let courseExistUser : Bool :=
    match user? with
    | some u => decide (courseId ∈ u.courses)
    | none => false
  if courseExistUser then
    ⟨db, .nextErr 400 "You already purchased this course", []⟩
  else
    match findCourseById db.courses courseId with
    | none => ⟨db, .nextErr 404 "Course not found", []⟩
    | some c =>
      if user?.isSome && !emailOk then
        ⟨db, .nextErr 500 "email send failed", [.evSendMailFail]⟩
      else
        let mailEvs : List Ev := if user?.isSome then [.evSendMail, .evSaveUser] else []
        let users1 :=
          match user? with
          | some u =>
            saveUserById db.users
              (if c.id ∈ u.courses then u else { u with courses := u.courses ++ [c.id] })
          | none => db.users
        let notif : Notification :=
          ⟨user?.map User.id, "New Order", "You have a new order form " ++ c.name⟩
        let c1 :=
          match c.purchased with
          | some n => if n = 0 then c else { c with purchased := some (n + 1) }
          | none => c
        let db1 : DB :=
          ⟨db.orders, users1, saveCourseById db.courses c1, db.notifications ++ [notif]⟩
        let evs := mailEvs ++ [Ev.evCreateNotification, Ev.evSaveCourse]
        match pid with
        | some i =>
          match findOrderByPayId db1.orders i with
          | some _ => ⟨db1, .json 200 "existing order", evs⟩
          | none => newOrder db1 ⟨c.id, user?.map User.id, payment⟩ evs
        | none => newOrder db1 ⟨c.id, user?.map User.id, payment⟩ evs

/-- `createOrder` from the order controller: the synchronous confirmation path.
`stripeRetrieveStatus i` is the status Stripe reports for PaymentIntent `i`
(`stripe.paymentIntents.retrieve`). A request whose `payment_info` carries an
`id` is first checked against existing orders, then re-checked with Stripe;
a request without an `id` skips both checks. -/
def createOrder (stripeRetrieveStatus : String → String) (emailOk : Bool) (db : DB)
    (reqUserId courseId : Nat) (payment : Option PaymentInfo) : HandlerResult :=
  let pid : Option String :=
    match payment with
    | some p => p.payId
    | none => none
  match pid with
  | some i =>
    match findOrderByPayId db.orders i with
    | some _ => ⟨db, .json 200 "existing order", []⟩
    | none =>
      if stripeRetrieveStatus i ≠ "succeeded" then
        ⟨db, .nextErr 400 "Payment not authorized", []⟩
      else
        createOrderAfterPayment emailOk db reqUserId courseId payment pid
  | none => createOrderAfterPayment emailOk db reqUserId courseId payment none

/-- A Stripe checkout session as seen by the webhook handler. -/
structure StripeSession where
  sid : String
  metaCourseId : Option Nat
  metaUserId : Option Nat
  paymentStat : String
  deriving DecidableEq

/-- A Stripe webhook event after `constructEvent`. -/
structure StripeEvent where
  evType : String
  session : StripeSession
  deriving DecidableEq

/-- `stripeWebhook` from the checkout controller. `eventOpt = none` models
`constructEvent` throwing on a bad signature; `emailOk` tells whether the
confirmation email send would succeed (its failure is swallowed). -/
def stripeWebhook (webhookSecret : Option String) (eventOpt : Option StripeEvent)
    (emailOk : Bool) (db : DB) : HandlerResult :=
  match webhookSecret with
  | none => ⟨db, .nextErr 500 "Stripe webhook secret is not configured", []⟩
  | some _ =>
    match eventOpt with
    | none => ⟨db, .json 400 "Webhook Error", []⟩
    | some ev =>
      if ev.evType = "checkout.session.completed" then
        match ev.session.metaCourseId, ev.session.metaUserId with
        | none, _ => ⟨db, .json 400 "Missing metadata", []⟩
        | some _, none => ⟨db, .json 400 "Missing metadata", []⟩
        | some cid, some uid =>
          match findOrderByPayId db.orders ev.session.sid with
          | some _ => ⟨db, .json 200 "received", []⟩
          | none =>
            match findCourseById db.courses cid, findUserById db.users uid with
            | some c, some u =>
              if cid ∈ u.courses then
                ⟨db, .json 200 "received", []⟩
              else
                let newOrd : Order :=
                  ⟨c.id, some u.id,
                    some ⟨none, some ev.session.sid, some ev.session.paymentStat, none, none⟩⟩
                let pushEvs : List Ev := if c.id ∈ u.courses then [] else [.evSaveUser]
                let users1 :=
                  if c.id ∈ u.courses then db.users
                  else saveUserById db.users { u with courses := u.courses ++ [c.id] }
                let mailEv : Ev := if emailOk then .evSendMail else .evSendMailFail
                let notif : Notification :=
                  ⟨some u.id, "New Order", "You have a new order for " ++ c.name⟩
                let c1 := { c with purchased := some (c.purchased.getD 0 + 1) }
                ⟨⟨db.orders ++ [newOrd], users1, saveCourseById db.courses c1,
                    db.notifications ++ [notif]⟩,
                  .json 200 "received",
                  .evCreateOrder :: pushEvs ++ [mailEv, .evCreateNotification, .evSaveCourse]⟩
            | _, _ => ⟨db, .json 404 "Course or user not found", []⟩
      else
        ⟨db, .json 200 "received", []⟩

/-- The successful response of the PayOS payment-request API call. -/
structure PayosApiResp where
  code : String
  desc : String
  info : PaymentInfo
  deriving DecidableEq

/-- `createPayOSPayment` from `payos.controller.ts`. `clientId`/`apiKey`/
`checksumKey` are the PayOS credentials; `api` is the provider's response to
the payment-request call (`none` models the HTTP call throwing); request body
fields are `none` when falsy. -/
def createPayOSPayment (clientId apiKey checksumKey : Option String)
    (api : Option PayosApiResp) (db : DB) (reqUserId : Nat)
    (courseId : Option Nat) (amount : Option Int) : HandlerResult :=
  match courseId, amount with
  | none, _ => ⟨db, .nextErr 400 "Course ID and amount are required", []⟩
  | some _, none => ⟨db, .nextErr 400 "Course ID and amount are required", []⟩
  | some cid, some _ =>
    if clientId.isNone || apiKey.isNone then
      ⟨db, .nextErr 500 "PayOS credentials are not configured", []⟩
    else
      match findCourseById db.courses cid with
      | none => ⟨db, .nextErr 404 "Course not found", []⟩
      | some _ =>
        match findUserById db.users reqUserId with
        | none => ⟨db, .nextErr 404 "User not found", []⟩
        | some u =>
          if cid ∈ u.courses then
            ⟨db, .nextErr 400 "You already purchased this course", []⟩
          else
            match checksumKey with
            | none => ⟨db, .nextErr 500 "PayOS checksum key is not configured", []⟩
            | some _ =>
              match api with
              | none => ⟨db, .nextErr 500 "payos request failed", [.evProviderCall]⟩
              | some r =>
                if r.code = "00" then
                  match r.info.orderCode with
                  | some oc =>
                    match findOrderByCode db.orders oc with
                    | some _ => ⟨db, .json 200 "payment created", [.evProviderCall]⟩
                    | none =>
                      ⟨{ db with orders := db.orders ++ [⟨cid, some u.id, some r.info⟩] },
                        .json 200 "payment created", [.evProviderCall, .evCreateOrder]⟩
                  | none =>
                    ⟨{ db with orders := db.orders ++ [⟨cid, some u.id, some r.info⟩] },
                      .json 200 "payment created", [.evProviderCall, .evCreateOrder]⟩
                else
                  ⟨db, .nextErr 500 r.desc, [.evProviderCall]⟩

/-- `createCheckoutSession` from the checkout controller. `session` is the
Stripe checkout session the provider would return (`none` models the call
throwing). -/
def createCheckoutSession (session : Option (String × String)) (db : DB)
    (reqUserId : Nat) (courseId : Option Nat) (amount : Option Int) : HandlerResult :=
  match courseId, amount with
  | none, _ => ⟨db, .nextErr 400 "Course ID and amount are required", []⟩
  | some _, none => ⟨db, .nextErr 400 "Course ID and amount are required", []⟩
  | some cid, some _ =>
    match findCourseById db.courses cid with
    | none => ⟨db, .nextErr 404 "Course not found", []⟩
    | some _ =>
      match findUserById db.users reqUserId with
      | none => ⟨db, .nextErr 404 "User not found", []⟩
      | some u =>
        if cid ∈ u.courses then
          ⟨db, .nextErr 400 "You already purchased this course", []⟩
        else
          match session with
          | none => ⟨db, .nextErr 500 "stripe session failed", [.evProviderCall]⟩
          | some _ => ⟨db, .json 200 "checkout session created", [.evProviderCall]⟩

/-- The database state after one PayOS webhook delivery; used to express
repeated delivery of the same webhook. -/
def payOSStep (hmac : String → String → String) (checksumKey : Option String)
    (devSkip : Bool) (emailOk : Bool) (d : Payload) (sig : String) (db : DB) : DB :=
  (payOSWebhook hmac checksumKey devSkip emailOk db (some d) (some sig)).db

theorem find?_append_some {α : Type} (l t : List α) (p : α → Bool) (a : α)
    (h : l.find? p = some a) : (l ++ t).find? p = some a := by
  rw [List.find?_append, h]
  rfl

theorem findCourseById_id (courses : List Course) (cid : Nat) (c : Course)
    (h : findCourseById courses cid = some c) : c.id = cid := by
  have := List.find?_some h
  simpa using this

theorem findUserById_id (users : List User) (uid : Nat) (u : User)
    (h : findUserById users uid = some u) : u.id = uid := by
  have := List.find?_some h
  simpa using this

theorem findUserById_save (users : List User) (uid : Nat) (u u1 : User)
    (h : findUserById users uid = some u) (hid : u1.id = u.id) :
    findUserById (saveUserById users u1) uid = some u1 := by
  have huid : u.id = uid := findUserById_id users uid u h
  induction users with
  | nil => simp [findUserById] at h
  | cons x xs ih =>
      by_cases hx : x.id = uid
      · have hxu : x = u := by
          have : findUserById (x :: xs) uid = some x := by
            simp [findUserById, List.find?_cons_of_pos, hx]
          rw [this] at h
          exact Option.some.inj h
        subst hxu
        simp [saveUserById, findUserById, hid, huid, hx]
      · have hxne : ¬ (x.id = u1.id) := by
          rw [hid, huid]; exact hx
        have htail : findUserById xs uid = some u := by
          simpa [findUserById, List.find?_cons_of_neg, hx] using h
        have := ih htail
        simpa [saveUserById, findUserById, hxne, hx] using this

theorem findCourseById_save (courses : List Course) (cid : Nat) (c c1 : Course)
    (h : findCourseById courses cid = some c) (hid : c1.id = c.id) :
    findCourseById (saveCourseById courses c1) cid = some c1 := by
  have hcid : c.id = cid := findCourseById_id courses cid c h
  induction courses with
  | nil => simp [findCourseById] at h
  | cons x xs ih =>
      by_cases hx : x.id = cid
      · have hxc : x = c := by
          have : findCourseById (x :: xs) cid = some x := by
            simp [findCourseById, List.find?_cons_of_pos, hx]
          rw [this] at h
          exact Option.some.inj h
        subst hxc
        simp [saveCourseById, findCourseById, hid, hcid, hx]
      · have hxne : ¬ (x.id = c1.id) := by
          rw [hid, hcid]; exact hx
        have htail : findCourseById xs cid = some c := by
          simpa [findCourseById, List.find?_cons_of_neg, hx] using h
        have := ih htail
        simpa [saveCourseById, findCourseById, hxne, hx] using this

theorem paymentHasCode_markPaid (o : Order) (oc : JsVal) :
    paymentHasCode (orderMarkPaid o).payment oc = paymentHasCode o.payment oc := by
  cases hp : o.payment <;> simp [orderMarkPaid, markPaid, paymentHasCode, hp]

theorem paymentHasPayId_markPaid (o : Order) (i : String) :
    paymentHasPayId (orderMarkPaid o).payment i = paymentHasPayId o.payment i := by
  cases hp : o.payment <;> simp [orderMarkPaid, markPaid, paymentHasPayId, hp]

theorem paymentIsPaid_markPaid (p : Option PaymentInfo) :
    paymentIsPaid (markPaid p) = true := by
  cases p <;> simp [markPaid, paymentIsPaid]

theorem findOrderByCode_setOrderPaid_self (orders : List Order) (oc : JsVal) (o : Order)
    (h : findOrderByCode orders oc = some o) :
    findOrderByCode (setOrderPaid orders oc) oc = some (orderMarkPaid o) := by
  induction orders with
  | nil => simp [findOrderByCode] at h
  | cons x xs ih =>
      by_cases hx : paymentHasCode x.payment oc = true
      · have hxo : x = o := by
          have : findOrderByCode (x :: xs) oc = some x := by
            simp [findOrderByCode, List.find?_cons_of_pos, hx]
          rw [this] at h
          exact Option.some.inj h
        subst hxo
        simp [setOrderPaid, hx, findOrderByCode,
          List.find?_cons_of_pos, paymentHasCode_markPaid]
      · have htail : findOrderByCode xs oc = some o := by
          simpa [findOrderByCode, List.find?_cons_of_neg, hx] using h
        have := ih htail
        simpa [setOrderPaid, hx, findOrderByCode, List.find?_cons_of_neg] using this

theorem findOrderByCode_cons_pos (x : Order) (xs : List Order) (oc : JsVal)
    (hx : paymentHasCode x.payment oc = true) :
    findOrderByCode (x :: xs) oc = some x := by
  simp [findOrderByCode, List.find?_cons_of_pos, hx]

theorem findOrderByCode_cons_neg (x : Order) (xs : List Order) (oc : JsVal)
    (hx : ¬ paymentHasCode x.payment oc = true) :
    findOrderByCode (x :: xs) oc = findOrderByCode xs oc := by
  unfold findOrderByCode
  exact List.find?_cons_of_neg _ hx

theorem findOrderByPayId_cons_pos (x : Order) (xs : List Order) (i : String)
    (hx : paymentHasPayId x.payment i = true) :
    findOrderByPayId (x :: xs) i = some x := by
  simp [findOrderByPayId, List.find?_cons_of_pos, hx]

theorem findOrderByPayId_cons_neg (x : Order) (xs : List Order) (i : String)
    (hx : ¬ paymentHasPayId x.payment i = true) :
    findOrderByPayId (x :: xs) i = findOrderByPayId xs i := by
  unfold findOrderByPayId
  exact List.find?_cons_of_neg _ hx

theorem findOrderByCode_setOrderPaid_preserved (orders : List Order) (oc oc2 : JsVal)
    (o m : Order)
    (hfd : findOrderByCode orders oc = some o) (hpaid : paymentIsPaid o.payment = true)
    (hfd2 : findOrderByCode orders oc2 = some m) (hm : paymentIsPaid m.payment = false) :
    findOrderByCode (setOrderPaid orders oc2) oc = some o := by
  induction orders with
  | nil => simp [findOrderByCode] at hfd
  | cons x xs ih =>
      by_cases hx2 : paymentHasCode x.payment oc2 = true
      · have hxm : m = x := by
          rw [findOrderByCode_cons_pos x xs oc2 hx2] at hfd2
          exact (Option.some.inj hfd2).symm
        by_cases hx : paymentHasCode x.payment oc = true
        · rw [findOrderByCode_cons_pos x xs oc hx] at hfd
          have hox : o = x := (Option.some.inj hfd).symm
          rw [hox] at hpaid
          rw [← hxm] at hpaid
          rw [hpaid] at hm
          cases hm
        · rw [findOrderByCode_cons_neg x xs oc hx] at hfd
          have hmk : ¬ paymentHasCode (orderMarkPaid x).payment oc = true := by
            rw [paymentHasCode_markPaid]; exact hx
          have hset : setOrderPaid (x :: xs) oc2 = orderMarkPaid x :: xs := by
            simp [setOrderPaid, hx2]
          rw [hset, findOrderByCode_cons_neg (orderMarkPaid x) xs oc hmk]
          exact hfd
      · have hset : setOrderPaid (x :: xs) oc2 = x :: setOrderPaid xs oc2 := by
          simp [setOrderPaid, hx2]
        have htail2 : findOrderByCode xs oc2 = some m := by
          rw [findOrderByCode_cons_neg x xs oc2 hx2] at hfd2
          exact hfd2
        by_cases hx : paymentHasCode x.payment oc = true
        · rw [findOrderByCode_cons_pos x xs oc hx] at hfd
          rw [hset, findOrderByCode_cons_pos x _ oc hx]
          exact hfd
        · rw [findOrderByCode_cons_neg x xs oc hx] at hfd
          rw [hset, findOrderByCode_cons_neg x _ oc hx]
          exact ih hfd htail2

theorem findOrderByPayId_setOrderPaid_preserved (orders : List Order) (i : String)
    (oc2 : JsVal) (o m : Order)
    (hfd : findOrderByPayId orders i = some o) (hpaid : paymentIsPaid o.payment = true)
    (hfd2 : findOrderByCode orders oc2 = some m) (hm : paymentIsPaid m.payment = false) :
    findOrderByPayId (setOrderPaid orders oc2) i = some o := by
  induction orders with
  | nil => simp [findOrderByPayId] at hfd
  | cons x xs ih =>
      by_cases hx2 : paymentHasCode x.payment oc2 = true
      · have hxm : m = x := by
          rw [findOrderByCode_cons_pos x xs oc2 hx2] at hfd2
          exact (Option.some.inj hfd2).symm
        by_cases hx : paymentHasPayId x.payment i = true
        · rw [findOrderByPayId_cons_pos x xs i hx] at hfd
          have hox : o = x := (Option.some.inj hfd).symm
          rw [hox] at hpaid
          rw [← hxm] at hpaid
          rw [hpaid] at hm
          cases hm
        · rw [findOrderByPayId_cons_neg x xs i hx] at hfd
          have hmk : ¬ paymentHasPayId (orderMarkPaid x).payment i = true := by
            rw [paymentHasPayId_markPaid]; exact hx
          have hset : setOrderPaid (x :: xs) oc2 = orderMarkPaid x :: xs := by
            simp [setOrderPaid, hx2]
          rw [hset, findOrderByPayId_cons_neg (orderMarkPaid x) xs i hmk]
          exact hfd
      · have hset : setOrderPaid (x :: xs) oc2 = x :: setOrderPaid xs oc2 := by
          simp [setOrderPaid, hx2]
        have htail2 : findOrderByCode xs oc2 = some m := by
          rw [findOrderByCode_cons_neg x xs oc2 hx2] at hfd2
          exact hfd2
        by_cases hx : paymentHasPayId x.payment i = true
        · rw [findOrderByPayId_cons_pos x xs i hx] at hfd
          rw [hset, findOrderByPayId_cons_pos x _ i hx]
          exact hfd
        · rw [findOrderByPayId_cons_neg x xs i hx] at hfd
          rw [hset, findOrderByPayId_cons_neg x _ i hx]
          exact ih hfd htail2

theorem payos_success_run (hmac : String → String → String) (checksumKey : Option String)
    (devSkip emailOk : Bool) (db : DB) (d : Payload) (sig : String)
    (o : Order) (c : Course) (u : User) (uid : Nat)
    (hv : verifyWebhookSignature hmac checksumKey devSkip (some d) sig = true)
    (hf : findOrderByCode db.orders (getField d "orderCode") = some o)
    (hp : paymentIsPaid o.payment = false)
    (hs : isPaymentSuccess d = true)
    (h4 : o.userId = some uid)
    (hu : findUserById db.users uid = some u)
    (hc : findCourseById db.courses o.courseId = some c)
    (hn : o.courseId ∉ u.courses) :
    payOSWebhook hmac checksumKey devSkip emailOk db (some d) (some sig) =
      ⟨⟨setOrderPaid db.orders (getField d "orderCode"),
        saveUserById db.users { u with courses := u.courses ++ [c.id] },
        saveCourseById db.courses { c with purchased := some (c.purchased.getD 0 + 1) },
        db.notifications ++ [⟨some u.id, "New Order", "You have a new order for " ++ c.name⟩]⟩,
       .json 200 "",
       [.evSaveOrder, .evSaveUser, (if emailOk then .evSendMail else .evSendMailFail),
        .evCreateNotification, .evSaveCourse, .evSocket]⟩ := by
  have hid : c.id = o.courseId := findCourseById_id db.courses o.courseId c hc
  have hnc : c.id ∉ u.courses := by rw [hid]; exact hn
  simp only [payOSWebhook, hv, if_true, hf, hp, Bool.false_eq_true, if_false, hs, hc, h4]
  simp [Option.some_bind, hu, hn, hnc]

theorem payOSStep_fixed (hmac : String → String → String) (checksumKey : Option String)
    (devSkip emailOk : Bool) (d : Payload) (sig : String) (db : DB) (o : Order)
    (hf : findOrderByCode db.orders (getField d "orderCode") = some o)
    (hp : paymentIsPaid o.payment = true) :
    payOSStep hmac checksumKey devSkip emailOk d sig db = db := by
  unfold payOSStep payOSWebhook
  cases hv : verifyWebhookSignature hmac checksumKey devSkip (some d) sig
  · simp [hv]
  · simp [hv, hf, hp]

theorem createOrderAfterPayment_orders (emailOk : Bool) (db : DB) (ru cid : Nat)
    (payment : Option PaymentInfo) (pid : Option String) :
    ∃ t, (createOrderAfterPayment emailOk db ru cid payment pid).db.orders = db.orders ++ t := by
  unfold createOrderAfterPayment newOrder
  dsimp only
  repeat' split
  all_goals first
    | exact ⟨[], (List.append_nil _).symm⟩
    | exact ⟨[_], rfl⟩

theorem createOrder_orders (f : String → String) (emailOk : Bool) (db : DB)
    (ru cid : Nat) (payment : Option PaymentInfo) :
    ∃ t, (createOrder f emailOk db ru cid payment).db.orders = db.orders ++ t := by
  unfold createOrder
  dsimp only
  repeat' split
  all_goals first
    | exact ⟨[], (List.append_nil _).symm⟩
    | exact createOrderAfterPayment_orders _ _ _ _ _ _

theorem stripeWebhook_orders (secret : Option String) (eventOpt : Option StripeEvent)
    (emailOk : Bool) (db : DB) :
    ∃ t, (stripeWebhook secret eventOpt emailOk db).db.orders = db.orders ++ t := by
  unfold stripeWebhook
  dsimp only
  repeat' split
  all_goals first
    | exact ⟨[], (List.append_nil _).symm⟩
    | exact ⟨[_], rfl⟩

theorem payOSWebhook_email_irrelevant (hmac : String → String → String)
    (checksumKey : Option String) (devSkip : Bool) (db : DB)
    (data : Option Payload) (signature : Option String) (e1 e2 : Bool) :
    (payOSWebhook hmac checksumKey devSkip e1 db data signature).db =
      (payOSWebhook hmac checksumKey devSkip e2 db data signature).db ∧
    (payOSWebhook hmac checksumKey devSkip e1 db data signature).resp =
      (payOSWebhook hmac checksumKey devSkip e2 db data signature).resp := by
  constructor <;>
    · unfold payOSWebhook
      repeat' split
      all_goals rfl

theorem stripeWebhook_email_irrelevant (secret : Option String)
    (eventOpt : Option StripeEvent) (db : DB) (e1 e2 : Bool) :
    (stripeWebhook secret eventOpt e1 db).db = (stripeWebhook secret eventOpt e2 db).db ∧
    (stripeWebhook secret eventOpt e1 db).resp = (stripeWebhook secret eventOpt e2 db).resp := by
  constructor <;>
    · unfold stripeWebhook
      repeat' split
      all_goals rfl

/-- A buyer owning no course yet. -/
def buyer : User := ⟨1, "buyer@example.com", []⟩

/-- A user who already owns course 10. -/
def owner : User := ⟨2, "owner@example.com", [10]⟩

/-- A course with no `purchased` field yet. -/
def algebra : Course := ⟨10, "Algebra", 49, none⟩

/-- A pending PayOS order for course 10, buyer 1, orderCode 123. -/
def pendingOrder : Order :=
  ⟨10, some 1, some ⟨some (JsVal.num 123), none, some "PENDING", some 49, some "VND"⟩⟩

/-- A PayOS order already marked PAID. -/
def paidOrder : Order :=
  ⟨10, some 1, some ⟨some (JsVal.num 123), none, some "PAID", some 49, some "VND"⟩⟩

/-- State with one pending order, the buyer, and the course. -/
def pendingDB : DB := ⟨[pendingOrder], [buyer], [algebra], []⟩

/-- State with no orders, the buyer, and the course. -/
def freshDB : DB := ⟨[], [buyer], [algebra], []⟩

/-- State whose only user already owns the course. -/
def ownedDB : DB := ⟨[], [owner], [algebra], []⟩

/-- A fully successful PayOS webhook payload for orderCode 123. -/
def successPayload : Payload :=
  [("orderCode", JsVal.num 123), ("code", JsVal.str "00"),
   ("desc", JsVal.str "success"), ("status", JsVal.str "PAID")]

/-- A payload whose only success indicator is `desc = "success"`. -/
def descOnlyPayload : Payload :=
  [("orderCode", JsVal.num 123), ("code", JsVal.str "01"),
   ("desc", JsVal.str "success"), ("status", JsVal.str "PENDING")]

/-- A stub HMAC whose digest is the fixed string "aa"; with it, signature "AA"
verifies (case-insensitively) and "bb" does not. -/
def stubHmac : String → String → String := fun _ _ => "aa"

/-- Claim C8: `verifyWebhookSignature` returns true exactly when the keyed hash
of the canonical string (fields sorted by name, values normalized, joined as
`key=value` with ampersands — as the spec words it) matches the supplied
signature case-insensitively, and it fails closed (returns false, without
throwing) on a missing checksum secret or a missing payload, provided the
development skip switch is off. -/
theorem C8_verify_signature_correct (hmac : String → String → String)
    (key : String) (d : Payload) (sig : String) (hnd : (d.map Prod.fst).Nodup) :
    (verifyWebhookSignature hmac (some key) false (some d) sig = true ↔
      toLowerAscii (hmac key (specCanonicalString d)) = toLowerAscii sig)
    ∧ (∀ dat sg, verifyWebhookSignature hmac none false dat sg = false)
    ∧ (∀ k sg, verifyWebhookSignature hmac k false none sg = false) := by
  refine ⟨?_, ?_, ?_⟩
  · simp [verifyWebhookSignature, canonicalString_eq_spec d hnd]
  · intro dat sg
    cases dat <;> rfl
  · intro k sg
    cases k <;> rfl

/-- Witness for C8 at a concrete two-field payload and a stub HMAC. -/
theorem C8_witness :
    verifyWebhookSignature (fun _ m => m) (some "k") false
      (some [("b", JsVal.str "1"), ("a", JsVal.jnull)]) "a=&b=1" = true := by
  have h := C8_verify_signature_correct (fun _ m => m) "k"
    [("b", JsVal.str "1"), ("a", JsVal.jnull)] "a=&b=1" (by decide)
  exact h.1.mpr (by decide)

/-- Claim C4: a PayOS webhook whose signature fails verification is answered
with 401 and leaves the database untouched: no Order mutation, no entitlement,
no notification, no counter increment, and no other side effect. -/
theorem C4_invalid_signature_no_side_effects (hmac : String → String → String)
    (checksumKey : Option String) (devSkip emailOk : Bool) (db : DB)
    (d : Payload) (sig : String)
    (hv : verifyWebhookSignature hmac checksumKey devSkip (some d) sig = false) :
    payOSWebhook hmac checksumKey devSkip emailOk db (some d) (some sig) =
      ⟨db, .json 401 "Invalid signature", []⟩ := by
  simp [payOSWebhook, hv]

/-- Witness for C4: a tampered signature is rejected on the pending state. -/
theorem C4_witness :
    payOSWebhook stubHmac (some "k") false true pendingDB
      (some successPayload) (some "bb") = ⟨pendingDB, .json 401 "Invalid signature", []⟩ :=
  C4_invalid_signature_no_side_effects stubHmac (some "k") false true pendingDB
    successPayload "bb" (by decide)

/-- Claim C7: an intent-creation request (PayOS or Stripe checkout) by a user
who already owns the course is answered with 400 "You already purchased this
course", the state is unchanged, and no provider call is issued (no events at
all). -/
theorem C7_duplicate_purchase_no_provider_call (cI aK : String)
    (checksumKey : Option String) (api : Option PayosApiResp)
    (session : Option (String × String)) (db : DB) (ru cid : Nat) (amt : Int)
    (c : Course) (u : User)
    (hc : findCourseById db.courses cid = some c)
    (hu : findUserById db.users ru = some u)
    (hown : cid ∈ u.courses) :
    createPayOSPayment (some cI) (some aK) checksumKey api db ru (some cid) (some amt) =
      ⟨db, .nextErr 400 "You already purchased this course", []⟩
    ∧ createCheckoutSession session db ru (some cid) (some amt) =
      ⟨db, .nextErr 400 "You already purchased this course", []⟩ := by
  constructor
  · simp [createPayOSPayment, hc, hu, hown]
  · simp [createCheckoutSession, hc, hu, hown]

/-- Witness for C7 on the state whose user 2 already owns course 10. -/
theorem C7_witness :
    createPayOSPayment (some "cid") (some "key") (some "ck") none ownedDB 2
      (some 10) (some 49) = ⟨ownedDB, .nextErr 400 "You already purchased this course", []⟩
    ∧ createCheckoutSession none ownedDB 2 (some 10) (some 49) =
      ⟨ownedDB, .nextErr 400 "You already purchased this course", []⟩ :=
  C7_duplicate_purchase_no_provider_call "cid" "key" (some "ck") none none ownedDB 2 10 49
    algebra owner (by decide) (by decide) (by decide)

/-- Claim C1 (amended): on the synchronous path, when the request's
`payment_info` carries a PaymentIntent id, no Order exists for that id, and
Stripe does not report status "succeeded" for it, `createOrder` fails with
400 "Payment not authorized" and performs no side effect at all: no course is
added, no Order is created, no notification, no counter increment. (Requests
whose `payment_info` carries no id skip provider verification entirely; see
the counterexample.) -/
theorem C1_unauthorized_payment_rejected (f : String → String) (emailOk : Bool)
    (db : DB) (ru cid : Nat) (p : PaymentInfo) (i : String)
    (hpid : p.payId = some i)
    (hno : findOrderByPayId db.orders i = none)
    (hst : f i ≠ "succeeded") :
    createOrder f emailOk db ru cid (some p) =
      ⟨db, .nextErr 400 "Payment not authorized", []⟩ := by
  simp [createOrder, hpid, hno, hst]

/-- Witness for the amended C1: a non-succeeded PaymentIntent is rejected
without side effects. -/
theorem C1_witness :
    createOrder (fun _ => "requires_payment_method") true freshDB 1 10
      (some ⟨none, some "pi_1", none, none, none⟩) =
      ⟨freshDB, .nextErr 400 "Payment not authorized", []⟩ :=
  C1_unauthorized_payment_rejected (fun _ => "requires_payment_method") true freshDB 1 10
    ⟨none, some "pi_1", none, none, none⟩ "pi_1" rfl rfl (by decide)

/-- Counterexample to C1 as stated: with a provider that never reports
"succeeded" for any PaymentIntent, a request that simply omits the payment id
is still granted the course — `createOrder` consults the provider only when
`payment_info` carries an `id`, so no authoritative re-check guards this
entitlement grant and the request does not fail with 400. -/
theorem C1_counterexample :
    (∀ s : String, (fun _ : String => "failed") s ≠ "succeeded")
    ∧ (createOrder (fun _ => "failed") true freshDB 1 10 none).resp =
        Resp.json 201 "order created"
    ∧ findUserById (createOrder (fun _ => "failed") true freshDB 1 10 none).db.users 1 =
        some ⟨1, "buyer@example.com", [10]⟩
    ∧ (createOrder (fun _ => "failed") true freshDB 1 10 none).db.orders.length = 1 := by
  refine ⟨fun s => ?_, ?_, ?_, ?_⟩
  · show ("failed" : String) ≠ "succeeded"
    decide
  all_goals decide

/-- Claim C5 (amended): an email-transport failure is swallowed by both
webhook handlers — the resulting state and response are identical whether the
send succeeds or fails — but on the synchronous `createOrder` path an email
failure is caught and forwarded as a 500 error before the entitlement steps
run, so there it fails the request and prevents the grant, the Order, the
notification and the counter increment. -/
theorem C5_email_failure_isolation (hmac : String → String → String)
    (checksumKey : Option String) (devSkip : Bool) (db : DB)
    (data : Option Payload) (signature : Option String)
    (secret : Option String) (eventOpt : Option StripeEvent)
    (f : String → String) (ru cid : Nat) (u : User) (c : Course) (e1 e2 : Bool) :
    ((payOSWebhook hmac checksumKey devSkip e1 db data signature).db =
        (payOSWebhook hmac checksumKey devSkip e2 db data signature).db
      ∧ (payOSWebhook hmac checksumKey devSkip e1 db data signature).resp =
        (payOSWebhook hmac checksumKey devSkip e2 db data signature).resp)
    ∧ ((stripeWebhook secret eventOpt e1 db).db = (stripeWebhook secret eventOpt e2 db).db
      ∧ (stripeWebhook secret eventOpt e1 db).resp = (stripeWebhook secret eventOpt e2 db).resp)
    ∧ (findUserById db.users ru = some u → cid ∉ u.courses →
        findCourseById db.courses cid = some c →
        createOrder f false db ru cid none =
          ⟨db, .nextErr 500 "email send failed", [.evSendMailFail]⟩) := by
  refine ⟨payOSWebhook_email_irrelevant hmac checksumKey devSkip db data signature e1 e2,
    stripeWebhook_email_irrelevant secret eventOpt db e1 e2, ?_⟩
  intro hu hn hc
  have hnb : decide (cid ∈ u.courses) = false := by
    simp [hn]
  simp [createOrder, createOrderAfterPayment, hu, hnb, hc]

/-- Witness for the amended C5 at concrete states: the PayOS webhook outcome
is unaffected by email failure, and the synchronous path fails with 500. -/
theorem C5_witness :
    ((payOSWebhook stubHmac (some "k") false true freshDB (some successPayload)
        (some "AA")).db =
      (payOSWebhook stubHmac (some "k") false false freshDB (some successPayload)
        (some "AA")).db)
    ∧ createOrder (fun _ => "succeeded") false freshDB 1 10 none =
        ⟨freshDB, .nextErr 500 "email send failed", [.evSendMailFail]⟩ := by
  have h := C5_email_failure_isolation stubHmac (some "k") false freshDB
    (some successPayload) (some "AA") none none (fun _ => "succeeded") 1 10 buyer algebra
    true false
  exact ⟨h.1.1, h.2.2 (by decide) (by decide) (by decide)⟩

/-- Counterexample to C5 as stated: on the synchronous path an email failure
does fail the request (500) and rolls forward nothing — the state is
untouched, so the user gains no course, no Order is created, no notification
is recorded and no counter is incremented. -/
theorem C5_counterexample :
    (createOrder (fun _ => "succeeded") false freshDB 1 10 none).resp =
      Resp.nextErr 500 "email send failed"
    ∧ (createOrder (fun _ => "succeeded") false freshDB 1 10 none).db = freshDB := by
  exact ⟨by decide, by decide⟩

/-- Claim C6: the purchase counter. The synchronous path evaluates
`course.purchased ? course.purchased += 1 : course.purchased`, whose else-arm
is a no-op, so a successful first sale of a course whose counter is absent or
zero leaves the counter unchanged (this theorem evaluates the code at both
failing inputs); the spec's "incremented exactly once per distinct successful
Order, including when the counter is absent or zero" is the documented intent,
flagged in the spec itself as a defect of this code. -/
theorem C6_counter_not_incremented_on_falsy :
    ((createOrder (fun _ => "succeeded") true
        ⟨[], [buyer], [⟨10, "Algebra", 49, some 0⟩], []⟩ 1 10
        (some ⟨none, some "pi_2", some "succeeded", some 49, some "usd"⟩)).resp =
      Resp.json 201 "order created"
    ∧ (createOrder (fun _ => "succeeded") true
        ⟨[], [buyer], [⟨10, "Algebra", 49, some 0⟩], []⟩ 1 10
        (some ⟨none, some "pi_2", some "succeeded", some 49, some "usd"⟩)).db.orders.length = 1
    ∧ findCourseById (createOrder (fun _ => "succeeded") true
        ⟨[], [buyer], [⟨10, "Algebra", 49, some 0⟩], []⟩ 1 10
        (some ⟨none, some "pi_2", some "succeeded", some 49, some "usd"⟩)).db.courses 10 =
      some ⟨10, "Algebra", 49, some 0⟩)
    ∧ ((createOrder (fun _ => "succeeded") true freshDB 1 10
        (some ⟨none, some "pi_2", some "succeeded", some 49, some "usd"⟩)).resp =
      Resp.json 201 "order created"
    ∧ findCourseById (createOrder (fun _ => "succeeded") true freshDB 1 10
        (some ⟨none, some "pi_2", some "succeeded", some 49, some "usd"⟩)).db.courses 10 =
      some ⟨10, "Algebra", 49, none⟩) := by
  exact ⟨⟨by decide, by decide, by decide⟩, by decide, by decide⟩

theorem findOrderByCode_append (l t : List Order) (oc : JsVal) (o : Order)
    (h : findOrderByCode l oc = some o) : findOrderByCode (l ++ t) oc = some o :=
  find?_append_some l t _ o h

theorem findOrderByPayId_append (l t : List Order) (i : String) (o : Order)
    (h : findOrderByPayId l i = some o) : findOrderByPayId (l ++ t) i = some o :=
  find?_append_some l t _ o h

theorem payOSWebhook_orders_shape (hmac : String → String → String)
    (checksumKey : Option String) (devSkip emailOk : Bool) (db : DB)
    (d : Payload) (sig : String) :
    (payOSWebhook hmac checksumKey devSkip emailOk db (some d) (some sig)).db.orders = db.orders ∨
    (∃ m, findOrderByCode db.orders (getField d "orderCode") = some m ∧
      paymentIsPaid m.payment = false ∧
      (payOSWebhook hmac checksumKey devSkip emailOk db (some d) (some sig)).db.orders =
        setOrderPaid db.orders (getField d "orderCode")) := by
  cases hv : verifyWebhookSignature hmac checksumKey devSkip (some d) sig with
  | false => left; simp [payOSWebhook, hv]
  | true =>
    cases hf : findOrderByCode db.orders (getField d "orderCode") with
    | none =>
      left
      cases hs : isPaymentSuccess d <;> simp [payOSWebhook, hv, hf, hs]
    | some o =>
      cases hpaid : paymentIsPaid o.payment with
      | true => left; simp [payOSWebhook, hv, hf, hpaid]
      | false =>
        cases hs : isPaymentSuccess d with
        | false => left; simp [payOSWebhook, hv, hf, hpaid, hs]
        | true =>
          cases hc : findCourseById db.courses o.courseId with
          | none => left; simp [payOSWebhook, hv, hf, hpaid, hs, hc]
          | some c =>
            cases hu : o.userId.bind (findUserById db.users) with
            | none => left; simp [payOSWebhook, hv, hf, hpaid, hs, hc, hu]
            | some u =>
              right
              refine ⟨o, rfl, hpaid, ?_⟩
              by_cases how : o.courseId ∈ u.courses
              · simp [payOSWebhook, hv, hf, hpaid, hs, hc, hu, how]
              · simp [payOSWebhook, hv, hf, hpaid, hs, hc, hu, how]

/-- Claim C3: once an Order's payment status is PAID, no operation of this
subsystem regresses it — after any further PayOS webhook delivery, any
synchronous confirmation call, and any Stripe webhook delivery, the very same
PAID order record is still what a lookup by its payment identifier (PayOS
orderCode or Stripe PaymentIntent id) returns. -/
theorem C3_paid_is_terminal (hmac : String → String → String)
    (checksumKey : Option String) (devSkip em em2 emailOk : Bool) (db : DB)
    (data : Option Payload) (signature : Option String)
    (f : String → String) (ru cid : Nat) (payment : Option PaymentInfo)
    (secret : Option String) (eventOpt : Option StripeEvent) :
    (∀ oc o, findOrderByCode db.orders oc = some o → paymentIsPaid o.payment = true →
      findOrderByCode (payOSWebhook hmac checksumKey devSkip em db data signature).db.orders oc
          = some o
      ∧ findOrderByCode (createOrder f emailOk db ru cid payment).db.orders oc = some o
      ∧ findOrderByCode (stripeWebhook secret eventOpt em2 db).db.orders oc = some o)
    ∧ (∀ i o, findOrderByPayId db.orders i = some o → paymentIsPaid o.payment = true →
      findOrderByPayId (payOSWebhook hmac checksumKey devSkip em db data signature).db.orders i
          = some o
      ∧ findOrderByPayId (createOrder f emailOk db ru cid payment).db.orders i = some o
      ∧ findOrderByPayId (stripeWebhook secret eventOpt em2 db).db.orders i = some o) := by
  constructor
  · intro oc o hfd hpaid
    refine ⟨?_, ?_, ?_⟩
    · cases data with
      | none => exact hfd
      | some d =>
        cases signature with
        | none => exact hfd
        | some s =>
          rcases payOSWebhook_orders_shape hmac checksumKey devSkip em db d s with h | ⟨m, hm2, hmp, h⟩
          · rw [h]; exact hfd
          · rw [h]
            exact findOrderByCode_setOrderPaid_preserved db.orders oc _ o m hfd hpaid hm2 hmp
    · rcases createOrder_orders f emailOk db ru cid payment with ⟨t, ht⟩
      rw [ht]
      exact findOrderByCode_append db.orders t oc o hfd
    · rcases stripeWebhook_orders secret eventOpt em2 db with ⟨t, ht⟩
      rw [ht]
      exact findOrderByCode_append db.orders t oc o hfd
  · intro i o hfd hpaid
    refine ⟨?_, ?_, ?_⟩
    · cases data with
      | none => exact hfd
      | some d =>
        cases signature with
        | none => exact hfd
        | some s =>
          rcases payOSWebhook_orders_shape hmac checksumKey devSkip em db d s with h | ⟨m, hm2, hmp, h⟩
          · rw [h]; exact hfd
          · rw [h]
            exact findOrderByPayId_setOrderPaid_preserved db.orders i _ o m hfd hpaid hm2 hmp
    · rcases createOrder_orders f emailOk db ru cid payment with ⟨t, ht⟩
      rw [ht]
      exact findOrderByPayId_append db.orders t i o hfd
    · rcases stripeWebhook_orders secret eventOpt em2 db with ⟨t, ht⟩
      rw [ht]
      exact findOrderByPayId_append db.orders t i o hfd

/-- State whose only order is already PAID. -/
def paidDB : DB := ⟨[paidOrder], [buyer], [algebra], []⟩

/-- Witness for C3: a PAID order survives a further success webhook and a
synchronous confirmation call unchanged. -/
theorem C3_witness :
    findOrderByCode (payOSWebhook stubHmac (some "k") false true paidDB
        (some successPayload) (some "AA")).db.orders (JsVal.num 123) = some paidOrder
    ∧ findOrderByCode (createOrder (fun _ => "succeeded") true paidDB 1 10
        none).db.orders (JsVal.num 123) = some paidOrder := by
  have h := (C3_paid_is_terminal stubHmac (some "k") false true false true paidDB
      (some successPayload) (some "AA") (fun _ => "succeeded") 1 10 none none none).1
      (JsVal.num 123) paidOrder (by decide) (by decide)
  exact ⟨h.1, h.2.1⟩

/-- Claim C2: for a PayOS webhook with a valid signature — if no Order matches
the payload's orderCode, or the matching Order is already PAID, the handler
answers 200 with no side effects; and for an existing pending order of a user
who does not yet own the course, one delivery performs exactly one transition
to PAID, exactly one course append (the course then appears exactly once),
exactly one notification record and exactly one counter increment, and every
further delivery of the identical webhook (any number of repetitions) leaves
the state exactly as after the first. -/
theorem C2_webhook_idempotent (hmac : String → String → String)
    (checksumKey : Option String) (devSkip emailOk : Bool) (db : DB)
    (d : Payload) (sig : String)
    (hv : verifyWebhookSignature hmac checksumKey devSkip (some d) sig = true) :
    (findOrderByCode db.orders (getField d "orderCode") = none →
      (payOSWebhook hmac checksumKey devSkip emailOk db (some d) (some sig)).db = db
      ∧ (payOSWebhook hmac checksumKey devSkip emailOk db (some d) (some sig)).resp.statusCode = 200
      ∧ (payOSWebhook hmac checksumKey devSkip emailOk db (some d) (some sig)).events = [])
    ∧ (∀ o, findOrderByCode db.orders (getField d "orderCode") = some o →
      paymentIsPaid o.payment = true →
      (payOSWebhook hmac checksumKey devSkip emailOk db (some d) (some sig)).db = db
      ∧ (payOSWebhook hmac checksumKey devSkip emailOk db (some d) (some sig)).resp =
          .json 200 "Order already processed"
      ∧ (payOSWebhook hmac checksumKey devSkip emailOk db (some d) (some sig)).events = [])
    ∧ (∀ o c u uid, findOrderByCode db.orders (getField d "orderCode") = some o →
      paymentIsPaid o.payment = false →
      isPaymentSuccess d = true →
      o.userId = some uid →
      findUserById db.users uid = some u →
      findCourseById db.courses o.courseId = some c →
      o.courseId ∉ u.courses →
      (payOSWebhook hmac checksumKey devSkip emailOk db (some d) (some sig)).resp = .json 200 ""
      ∧ findOrderByCode
          (payOSWebhook hmac checksumKey devSkip emailOk db (some d) (some sig)).db.orders
          (getField d "orderCode") = some (orderMarkPaid o)
      ∧ paymentIsPaid (orderMarkPaid o).payment = true
      ∧ findUserById
          (payOSWebhook hmac checksumKey devSkip emailOk db (some d) (some sig)).db.users uid =
          some { u with courses := u.courses ++ [c.id] }
      ∧ (u.courses ++ [c.id]).count c.id = 1
      ∧ (payOSWebhook hmac checksumKey devSkip emailOk db (some d) (some sig)).db.notifications =
          db.notifications ++ [⟨some u.id, "New Order", "You have a new order for " ++ c.name⟩]
      ∧ findCourseById
          (payOSWebhook hmac checksumKey devSkip emailOk db (some d) (some sig)).db.courses
          o.courseId = some { c with purchased := some (c.purchased.getD 0 + 1) }
      ∧ (∀ n : Nat, (payOSStep hmac checksumKey devSkip emailOk d sig)^[n + 1] db =
          payOSStep hmac checksumKey devSkip emailOk d sig db)) := by
  refine ⟨?_, ?_, ?_⟩
  · intro hf
    cases hs : isPaymentSuccess d <;>
      simp [payOSWebhook, hv, hf, hs, Resp.statusCode]
  · intro o hf hpaid
    simp [payOSWebhook, hv, hf, hpaid]
  · intro o c u uid hf hp hs h4 hu hc hn
    have E := payos_success_run hmac checksumKey devSkip emailOk db d sig o c u uid
      hv hf hp hs h4 hu hc hn
    have hid : c.id = o.courseId := findCourseById_id db.courses o.courseId c hc
    have hstep1 : payOSStep hmac checksumKey devSkip emailOk d sig db =
        ⟨setOrderPaid db.orders (getField d "orderCode"),
          saveUserById db.users { u with courses := u.courses ++ [c.id] },
          saveCourseById db.courses { c with purchased := some (c.purchased.getD 0 + 1) },
          db.notifications ++
            [⟨some u.id, "New Order", "You have a new order for " ++ c.name⟩]⟩ := by
      unfold payOSStep
      rw [E]
    have hfind1 : findOrderByCode (setOrderPaid db.orders (getField d "orderCode"))
        (getField d "orderCode") = some (orderMarkPaid o) :=
      findOrderByCode_setOrderPaid_self db.orders (getField d "orderCode") o hf
    refine ⟨by rw [E], ?_, ?_, ?_, ?_, by rw [E], ?_, ?_⟩
    · rw [E]
      exact hfind1
    · exact paymentIsPaid_markPaid o.payment
    · rw [E]
      exact findUserById_save db.users uid u { u with courses := u.courses ++ [c.id] } hu rfl
    · have h0 : u.courses.count c.id = 0 := by
        rw [List.count_eq_zero]
        rw [hid]
        exact hn
      rw [List.count_append, h0, List.count_singleton_self]
    · rw [E]
      exact findCourseById_save db.courses o.courseId c
        { c with purchased := some (c.purchased.getD 0 + 1) } hc rfl
    · have hfix : payOSStep hmac checksumKey devSkip emailOk d sig
          ⟨setOrderPaid db.orders (getField d "orderCode"),
            saveUserById db.users { u with courses := u.courses ++ [c.id] },
            saveCourseById db.courses { c with purchased := some (c.purchased.getD 0 + 1) },
            db.notifications ++
              [⟨some u.id, "New Order", "You have a new order for " ++ c.name⟩]⟩ =
          ⟨setOrderPaid db.orders (getField d "orderCode"),
            saveUserById db.users { u with courses := u.courses ++ [c.id] },
            saveCourseById db.courses { c with purchased := some (c.purchased.getD 0 + 1) },
            db.notifications ++
              [⟨some u.id, "New Order", "You have a new order for " ++ c.name⟩]⟩ :=
        payOSStep_fixed hmac checksumKey devSkip emailOk d sig _ (orderMarkPaid o) hfind1
          (paymentIsPaid_markPaid o.payment)
      intro n
      induction n with
      | zero => rfl
      | succ k ih =>
          rw [Function.iterate_succ_apply', ih, hstep1, hfix, ← hstep1]

/-- Witness for C2: on the pending state the first delivery increments the
counter to one, and three deliveries leave the state exactly as one. -/
theorem C2_witness :
    findCourseById (payOSWebhook stubHmac (some "k") false true pendingDB
      (some successPayload) (some "AA")).db.courses 10 = some ⟨10, "Algebra", 49, some 1⟩
    ∧ (payOSStep stubHmac (some "k") false true successPayload "AA")^[3] pendingDB =
      payOSStep stubHmac (some "k") false true successPayload "AA" pendingDB := by
  have h := (C2_webhook_idempotent stubHmac (some "k") false true pendingDB successPayload "AA"
      (by decide)).2.2 pendingOrder algebra buyer 1 (by decide) (by decide) (by decide)
      (by decide) (by decide) (by decide) (by decide)
  exact ⟨h.2.2.2.2.2.2.1, h.2.2.2.2.2.2.2 2⟩

/-- Counterexample to C9 as stated: in the success branch the handler saves
the Order as PAID first and only then appends the course to the user — the
claimed "Entitlement Applier first, then transition to PAID" order is the
reverse of what the code does. -/
theorem C9_counterexample :
    (payOSWebhook stubHmac (some "k") false true pendingDB (some successPayload)
      (some "AA")).events =
      [.evSaveOrder, .evSaveUser, .evSendMail, .evCreateNotification, .evSaveCourse, .evSocket]
    ∧ ¬ ((payOSWebhook stubHmac (some "k") false true pendingDB (some successPayload)
        (some "AA")).events.indexOf Ev.evSaveUser <
      (payOSWebhook stubHmac (some "k") false true pendingDB (some successPayload)
        (some "AA")).events.indexOf Ev.evSaveOrder) := by
  exact ⟨by decide, by decide⟩

/-- Claim C9 (amended): in the PayOS webhook success path, for an existing
not-yet-PAID Order whose user does not already own the course, the Order is
transitioned to PAID first and the course id is appended to the user's owned
set second, in that order (followed by the mail send, the notification record,
the counter save and the socket emit). -/
theorem C9_order_paid_before_entitlement (hmac : String → String → String)
    (checksumKey : Option String) (devSkip emailOk : Bool) (db : DB)
    (d : Payload) (sig : String) (o : Order) (c : Course) (u : User) (uid : Nat)
    (hv : verifyWebhookSignature hmac checksumKey devSkip (some d) sig = true)
    (hf : findOrderByCode db.orders (getField d "orderCode") = some o)
    (hp : paymentIsPaid o.payment = false)
    (hs : isPaymentSuccess d = true)
    (h4 : o.userId = some uid)
    (hu : findUserById db.users uid = some u)
    (hc : findCourseById db.courses o.courseId = some c)
    (hn : o.courseId ∉ u.courses) :
    (payOSWebhook hmac checksumKey devSkip emailOk db (some d) (some sig)).events =
      [.evSaveOrder, .evSaveUser, (if emailOk then .evSendMail else .evSendMailFail),
       .evCreateNotification, .evSaveCourse, .evSocket]
    ∧ (payOSWebhook hmac checksumKey devSkip emailOk db (some d) (some sig)).events.indexOf
        Ev.evSaveOrder <
      (payOSWebhook hmac checksumKey devSkip emailOk db (some d) (some sig)).events.indexOf
        Ev.evSaveUser := by
  have E := payos_success_run hmac checksumKey devSkip emailOk db d sig o c u uid
    hv hf hp hs h4 hu hc hn
  refine ⟨by rw [E], ?_⟩
  rw [E]
  cases emailOk <;> (dsimp only; decide)

/-- Witness for the amended C9 at the concrete pending state. -/
theorem C9_witness :
    (payOSWebhook stubHmac (some "k") false true pendingDB (some successPayload)
      (some "AA")).events.indexOf Ev.evSaveOrder <
    (payOSWebhook stubHmac (some "k") false true pendingDB (some successPayload)
      (some "AA")).events.indexOf Ev.evSaveUser :=
  (C9_order_paid_before_entitlement stubHmac (some "k") false true pendingDB successPayload
    "AA" pendingOrder algebra buyer 1 (by decide) (by decide) (by decide) (by decide)
    (by decide) (by decide) (by decide) (by decide)).2

/-- Claim C10: the PayOS webhook classifies a payload as a successful payment
exactly when `code = "00"` or `desc = "success"` or `status = "PAID"`, and one
of these alone — here `desc = "success"` with arbitrary other fields — already
drives an existing pending order to PAID and grants the course. -/
theorem C10_success_classification (d : Payload) :
    (isPaymentSuccess d = true ↔
      (getField d "code" = JsVal.str "00" ∨ getField d "desc" = JsVal.str "success"
        ∨ getField d "status" = JsVal.str "PAID"))
    ∧ (∀ (hmac : String → String → String) (checksumKey : Option String)
        (devSkip emailOk : Bool) (db : DB) (sig : String) (o : Order) (c : Course)
        (u : User) (uid : Nat),
      verifyWebhookSignature hmac checksumKey devSkip (some d) sig = true →
      getField d "desc" = JsVal.str "success" →
      findOrderByCode db.orders (getField d "orderCode") = some o →
      paymentIsPaid o.payment = false →
      o.userId = some uid →
      findUserById db.users uid = some u →
      findCourseById db.courses o.courseId = some c →
      o.courseId ∉ u.courses →
      findOrderByCode (payOSWebhook hmac checksumKey devSkip emailOk db (some d)
          (some sig)).db.orders (getField d "orderCode") = some (orderMarkPaid o)
      ∧ findUserById (payOSWebhook hmac checksumKey devSkip emailOk db (some d)
          (some sig)).db.users uid = some { u with courses := u.courses ++ [c.id] }) := by
  constructor
  · simp [isPaymentSuccess, or_assoc]
  · intro hmac ck dev em db sig o c u uid hv hdesc hf hp h4 hu hc hn
    have hs : isPaymentSuccess d = true := by
      simp [isPaymentSuccess, hdesc]
    have E := payos_success_run hmac ck dev em db d sig o c u uid hv hf hp hs h4 hu hc hn
    constructor
    · rw [E]
      exact findOrderByCode_setOrderPaid_self db.orders (getField d "orderCode") o hf
    · rw [E]
      exact findUserById_save db.users uid u { u with courses := u.courses ++ [c.id] } hu rfl

/-- Witness for C10: a payload whose only success indicator is `desc` drives
the pending order to PAID. -/
theorem C10_witness :
    findOrderByCode (payOSWebhook stubHmac (some "k") false true pendingDB
      (some descOnlyPayload) (some "AA")).db.orders (JsVal.num 123) =
      some (orderMarkPaid pendingOrder) := by
  have h := (C10_success_classification descOnlyPayload).2 stubHmac (some "k") false true
    pendingDB "AA" pendingOrder algebra buyer 1 (by decide) (by decide) (by decide)
    (by decide) (by decide) (by decide) (by decide) (by decide)
  exact h.1
